import Mathlib

/-!
Verification of the currency-converter plugin core (`src/__init__.py`).

The embedding models the two components:
- `EuropeanCentralBank` (RateCache): `update_exchange_rates`,
  `get_amount_in_dest_currency`, with the mutable fields `last_update`
  (seconds since the epoch, as `Int`) and `euro_to_currency` (a Python
  dict, modelled as an insertion-ordered association list).
- `Plugin` (QueryResolver): `get_alias`, `create_item`, `items`.

Python floats are modelled as exact rationals `ℚ`; the builtin `float(·)`
string conversion is an external library function and is passed in as a
parameter `pf : String → Option ℚ` (`none` models a raised `ValueError`).
The network fetch plus XML parsing up to the leaf loop is external I/O and
is passed in as `fetch : Except PyExc (List (String × String))`: an
exception raised by `urlopen`/`read`/`iterparse`/`namespaces` lookup or a
missing leaf attribute, or the list of `(currency, rate)` attribute pairs
of the leaves. Python exceptions of the kinds the code can raise are the
inductive `PyExc`; only `ValueError` is ever caught by the code. Effectful
calls return an `Eff α`: the returned value or uncaught exception, the
post-state of the mutable cache, and the number of network fetch attempts
performed (one per execution of the `urlopen` call).
-/

/-- Exception kinds raisable on the conversion path of the source.
`valueError` covers the bare `raise ValueError` for an unknown currency and
the `float(...)` failure on a malformed rate attribute; `urlError` is a
network failure from `urlopen`; `etParseError` is a malformed-XML failure
from `iterparse`/`parse`; `keyError` is a missing namespace or a missing
leaf attribute. -/
inductive PyExc where
  | valueError
  | urlError
  | etParseError
  | keyError
deriving DecidableEq, Repr

/-- Mutable state of the `EuropeanCentralBank` singleton: `last_update`
(UTC seconds since the epoch) and the dict `euro_to_currency`. -/
structure ECBState where
  last_update : Int
  euro_to_currency : List (String × ℚ)
deriving DecidableEq, Repr

/-- Result of running an effectful method: the returned value or the
uncaught Python exception, the post-state of the cache singleton, and how
many times `urlopen` ran. -/
structure Eff (α : Type) where
  result : Except PyExc α
  state : ECBState
  fetches : Nat

/-- The `CACHE_TIME` class constant, `timedelta(hours=3)`, in seconds. -/
def CACHE_TIME : Int := 3 * 3600

/-- Python dict assignment `d[k] = v`: overwrite in place if the key is
present, else append at the end. -/
def dictInsert (k : String) (v : ℚ) : List (String × ℚ) → List (String × ℚ)
  | [] => [(k, v)]
  | (k', v') :: rest =>
    if k' = k then (k', v) :: rest else (k', v') :: dictInsert k v rest

/-- The leaf loop of `update_exchange_rates`:
`self.euro_to_currency[leaf.attrib['currency']] = float(leaf.attrib['rate'])`
over each leaf, inserting into the dict until done or until `float` raises
`ValueError` on a malformed rate string (entries inserted before the
failure stay inserted). -/
def insert_rates (pf : String → Option ℚ) :
    List (String × String) → List (String × ℚ) → List (String × ℚ) × Option PyExc
  | [], r => (r, none)
  | (c, rs) :: rest, r =>
    match pf rs with
    | none => (r, some PyExc.valueError)
    | some q => insert_rates pf rest (dictInsert c q r)

/-- The method `EuropeanCentralBank.update_exchange_rates`. If the elapsed
time since `last_update` is at most `CACHE_TIME` it returns at once with no
fetch and no state change. Otherwise it clears the dict, seeds
`EUR → 1.0`, performs one fetch; on a fetch/parse exception the exception
propagates with `last_update` untouched, on success it inserts every leaf
entry and only then sets `last_update` to the current time. -/
def update_exchange_rates (pf : String → Option ℚ)
    (fetch : Except PyExc (List (String × String))) (now : Int)
    (s : ECBState) : Eff Unit :=
  if now - s.last_update ≤ CACHE_TIME then ⟨Except.ok (), s, 0⟩
  else
    match fetch with
    | Except.error e => ⟨Except.error e, ⟨s.last_update, [("EUR", 1)]⟩, 1⟩
    | Except.ok entries =>
      match insert_rates pf entries [("EUR", 1)] with
      | (r, some e) => ⟨Except.error e, ⟨s.last_update, r⟩, 1⟩
      | (r, none) => ⟨Except.ok (), ⟨now, r⟩, 1⟩

/-- The method `EuropeanCentralBank.get_amount_in_dest_currency`: refresh
if stale, raise `ValueError` if either currency is absent from the dict,
else return `src_amount / rates[src] * rates[dest]`. -/
def get_amount_in_dest_currency (pf : String → Option ℚ)
    (fetch : Except PyExc (List (String × String))) (now : Int)
    (src_amount : ℚ) (src_currency dest_currency : String)
    (s : ECBState) : Eff ℚ :=
  match update_exchange_rates pf fetch now s with
  | ⟨Except.error e, s', n⟩ => ⟨Except.error e, s', n⟩
  | ⟨Except.ok _, s', n⟩ =>
    match List.lookup src_currency s'.euro_to_currency,
        List.lookup dest_currency s'.euro_to_currency with
    | some rs, some rd => ⟨Except.ok (src_amount / rs * rd), s', n⟩
    | _, _ => ⟨Except.error PyExc.valueError, s', n⟩

/-- Python `str.lower()` (ASCII case folding, the only case the currency
tokens use), computed structurally over the character list so concrete
instances evaluate in the kernel. -/
def pyLower (s : String) : String := ⟨s.data.map Char.toLower⟩

/-- Python `str.upper()` (ASCII case folding), computed structurally over
the character list. -/
def pyUpper (s : String) : String := ⟨s.data.map Char.toUpper⟩

/-- The method `Plugin.get_alias`: lower-case the token, look it up in the
alias table (fall through to the token itself), upper-case the result. -/
def get_alias (aliases : List (String × String)) (currency_name : String) :
    String :=
  let lower := pyLower currency_name
  pyUpper ((List.lookup lower aliases).getD lower)

/-- A produced result item, keeping the data the `StandardItem` is built
from: its id `src,dest`, and the amounts and codes that its display
strings `"{dest_amount:.2f} {dest}"` and
`"Value of {src_amount:.2f} {src} in {dest}"` format. -/
structure Item where
  id : String
  destAmount : ℚ
  destCurrency : String
  srcAmount : ℚ
  srcCurrency : String
deriving DecidableEq, Repr

/-- The method `Plugin.create_item`: run the conversion; on success build
the item; a raised `ValueError` is caught and yields `none`; any other
exception propagates. -/
def create_item (pf : String → Option ℚ)
    (fetch : Except PyExc (List (String × String))) (now : Int)
    (src_amount : ℚ) (src_currency dest_currency : String)
    (s : ECBState) : Eff (Option Item) :=
  match get_amount_in_dest_currency pf fetch now src_amount src_currency
      dest_currency s with
  | ⟨Except.ok amt, s', n⟩ =>
    ⟨Except.ok (some ⟨src_currency ++ "," ++ dest_currency, amt,
      dest_currency, src_amount, src_currency⟩), s', n⟩
  | ⟨Except.error e, s', n⟩ =>
    if e = PyExc.valueError then ⟨Except.ok none, s', n⟩
    else ⟨Except.error e, s', n⟩

/-- Helper for `pySplit`: cut a character list at whitespace characters,
accumulating the current token in reverse. -/
def splitWsAux : List Char → List Char → List (List Char)
  | [], acc => [acc.reverse]
  | c :: cs, acc =>
    if c.isWhitespace then acc.reverse :: splitWsAux cs []
    else splitWsAux cs (c :: acc)

/-- Python `str.split()` with no argument: split on whitespace runs,
dropping empty tokens. -/
def pySplit (s : String) : List String :=
  ((splitWsAux s.data []).filter fun t => t ≠ []).map fun t => ⟨t⟩

/-- The defaults loop of `Plugin.items` (the omitted-destination branch):
walk `defaults_dests` in order, `continue` on an entry equal to the
resolved source currency, otherwise attempt `create_item` and append the
item when one is produced; an uncaught exception aborts the loop (and the
whole generator, so already collected items are lost). -/
def items_defaults (pf : String → Option ℚ)
    (fetch : Except PyExc (List (String × String))) (now : Int)
    (src_amount : ℚ) (src_currency : String) :
    List String → ECBState → Eff (List Item)
  | [], s => ⟨Except.ok [], s, 0⟩
  | d :: rest, s =>
    if d = src_currency then
      items_defaults pf fetch now src_amount src_currency rest s
    else
      match create_item pf fetch now src_amount src_currency d s with
      | ⟨Except.error e, s', n⟩ => ⟨Except.error e, s', n⟩
      | ⟨Except.ok none, s', n⟩ =>
        let r := items_defaults pf fetch now src_amount src_currency rest s'
        ⟨r.result, r.state, n + r.fetches⟩
      | ⟨Except.ok (some it), s', n⟩ =>
        let r := items_defaults pf fetch now src_amount src_currency rest s'
        ⟨(fun l => it :: l) <$> r.result, r.state, n + r.fetches⟩

/-- The generator `Plugin.items`, flattened to the host-visible ordered
list of items (the concatenation of its yields). The query is whitespace
tokenized; a token count other than 2 or 3, or an amount token on which
`float` raises, is caught by the `except ValueError: return` and gives an
empty result; otherwise aliases are resolved and either the single
explicit conversion or the defaults loop runs. -/
def Plugin.items (pf : String → Option ℚ)
    (fetch : Except PyExc (List (String × String)))
    (aliases : List (String × String)) (defaults_dests : List String)
    (now : Int) (query : String) (s : ECBState) : Eff (List Item) :=
  match pySplit query with
  | [t1, t2] =>
    match pf t1 with
    | none => ⟨Except.ok [], s, 0⟩
    | some src_amount =>
      items_defaults pf fetch now src_amount (get_alias aliases t2)
        defaults_dests s
  | [t1, t2, t3] =>
    match pf t1 with
    | none => ⟨Except.ok [], s, 0⟩
    | some src_amount =>
      match create_item pf fetch now src_amount (get_alias aliases t2)
          (get_alias aliases t3) s with
      | ⟨Except.ok (some it), s', n⟩ => ⟨Except.ok [it], s', n⟩
      | ⟨Except.ok none, s', n⟩ => ⟨Except.ok [], s', n⟩
      | ⟨Except.error e, s', n⟩ => ⟨Except.error e, s', n⟩
  | _ => ⟨Except.ok [], s, 0⟩

/-- Sample `float` model used by concrete witnesses. -/
def pf0 : String → Option ℚ := fun t =>
  if t = "1" then some 1
  else if t = "2" then some 2
  else if t = "10" then some 10
  else if t = "0.5" then some (1 / 2)
  else if t = "1.1" then some (11 / 10)
  else none

/-- Pure description of a single conversion attempt against a fixed rates
dict: the item `create_item` builds when both currencies are present, and
`none` when the attempt fails with the caught unknown-currency
`ValueError`. Used to state what the defaults loop collects. -/
def mkConvItem (r : List (String × ℚ)) (a : ℚ) (src d : String) :
    Option Item :=
  match List.lookup src r, List.lookup d r with
  | some rs, some rd => some ⟨src ++ "," ++ d, a / rs * rd, d, a, src⟩
  | _, _ => none

/-- Refresh helper: if the feed list parses fully, the leaf loop raises
nothing. -/
theorem insert_rates_no_fail (pf : String → Option ℚ)
    (entries : List (String × String))
    (hparse : ∀ p ∈ entries, (pf p.2).isSome) :
    ∀ r, (insert_rates pf entries r).2 = none := by
  induction entries with
  | nil => intro r; rfl
  | cons p rest ih =>
    intro r
    obtain ⟨c, rs⟩ := p
    have hp : (pf rs).isSome := hparse (c, rs) (List.mem_cons_self _ _)
    cases hq : pf rs with
    | none => rw [hq] at hp; simp at hp
    | some q =>
      simp only [insert_rates, hq]
      exact ih (fun p hp => hparse p (List.mem_cons_of_mem _ hp)) _

/-- Equation lemma: refresh on a fresh cache is a no-op with no fetch. -/
theorem update_hit (pf : String → Option ℚ)
    (fetch : Except PyExc (List (String × String))) (now : Int)
    (s : ECBState) (h : now - s.last_update ≤ CACHE_TIME) :
    update_exchange_rates pf fetch now s = ⟨Except.ok (), s, 0⟩ := by
  simp [update_exchange_rates, h]

/-- Equation lemma: stale refresh with a failing fetch. -/
theorem update_stale_err (pf : String → Option ℚ) (e : PyExc) (now : Int)
    (s : ECBState) (h : ¬ now - s.last_update ≤ CACHE_TIME) :
    update_exchange_rates pf (Except.error e) now s
      = ⟨Except.error e, ⟨s.last_update, [("EUR", 1)]⟩, 1⟩ := by
  simp [update_exchange_rates, h]

/-- Equation lemma: stale refresh where the leaf loop raises mid-way. -/
theorem update_stale_loop_err (pf : String → Option ℚ)
    (entries : List (String × String)) (now : Int) (s : ECBState)
    (r : List (String × ℚ)) (e : PyExc)
    (h : ¬ now - s.last_update ≤ CACHE_TIME)
    (hins : insert_rates pf entries [("EUR", 1)] = (r, some e)) :
    update_exchange_rates pf (Except.ok entries) now s
      = ⟨Except.error e, ⟨s.last_update, r⟩, 1⟩ := by
  simp [update_exchange_rates, h, hins]

/-- Equation lemma: stale refresh that fully succeeds. -/
theorem update_stale_success (pf : String → Option ℚ)
    (entries : List (String × String)) (now : Int) (s : ECBState)
    (r : List (String × ℚ))
    (h : ¬ now - s.last_update ≤ CACHE_TIME)
    (hins : insert_rates pf entries [("EUR", 1)] = (r, none)) :
    update_exchange_rates pf (Except.ok entries) now s
      = ⟨Except.ok (), ⟨now, r⟩, 1⟩ := by
  simp [update_exchange_rates, h, hins]

/-- Refresh helper: on a fully parsing feed the refresh succeeds from any
state. -/
theorem update_ok (pf : String → Option ℚ)
    (entries : List (String × String)) (now : Int)
    (hparse : ∀ p ∈ entries, (pf p.2).isSome) (s : ECBState) :
    ∃ s' n, update_exchange_rates pf (Except.ok entries) now s
      = ⟨Except.ok (), s', n⟩ := by
  by_cases hle : now - s.last_update ≤ CACHE_TIME
  · exact ⟨s, 0, update_hit _ _ _ _ hle⟩
  · cases hins : insert_rates pf entries [("EUR", 1)] with
    | mk r exc =>
      have hexc : exc = none := by
        have := insert_rates_no_fail pf entries hparse [("EUR", 1)]
        rw [hins] at this; exact this
      subst hexc
      exact ⟨⟨now, r⟩, 1, update_stale_success pf entries now s r hle hins⟩

/-- Refresh helper: a successful refresh leaves the cache fresh, so an
immediately repeated refresh with the same clock is a cache hit that
changes nothing and fetches nothing. -/
theorem update_idempotent (pf : String → Option ℚ)
    (fetch : Except PyExc (List (String × String))) (now : Int)
    (s s' : ECBState) (n : Nat)
    (h : update_exchange_rates pf fetch now s = ⟨Except.ok (), s', n⟩) :
    update_exchange_rates pf fetch now s' = ⟨Except.ok (), s', 0⟩ := by
  by_cases hle : now - s.last_update ≤ CACHE_TIME
  · rw [update_hit pf fetch now s hle] at h
    simp only [Eff.mk.injEq] at h
    obtain ⟨-, hs, -⟩ := h
    subst hs
    exact update_hit pf fetch now s hle
  · cases fetch with
    | error e =>
      rw [update_stale_err pf e now s hle] at h
      simp at h
    | ok entries =>
      cases hins : insert_rates pf entries [("EUR", 1)] with
      | mk r exc =>
        cases exc with
        | some e =>
          rw [update_stale_loop_err pf entries now s r e hle hins] at h
          simp at h
        | none =>
          rw [update_stale_success pf entries now s r hle hins] at h
          simp only [Eff.mk.injEq] at h
          obtain ⟨-, hs, -⟩ := h
          subst hs
          exact update_hit pf (Except.ok entries) now _ (by simp [CACHE_TIME])

/-- Dict helper: inserting under a key different from `k` does not change
the lookup of `k`. -/
theorem lookup_dictInsert_ne (j k : String) (v : ℚ)
    (r : List (String × ℚ)) (h : j ≠ k) :
    List.lookup k (dictInsert j v r) = List.lookup k r := by
  induction r with
  | nil =>
    simp [dictInsert, List.lookup, beq_false_of_ne (Ne.symm h)]
  | cons p rest ih =>
    obtain ⟨a, b⟩ := p
    by_cases haj : a = j
    · subst haj
      simp [dictInsert, List.lookup, beq_false_of_ne (Ne.symm h)]
    · simp [dictInsert, haj, List.lookup, ih]

/-- Leaf-loop helper: if no feed entry names EUR, the loop does not touch
the seeded EUR entry, whether or not it raises mid-way. -/
theorem lookup_eur_insert_rates (pf : String → Option ℚ)
    (entries : List (String × String))
    (hne : ∀ p ∈ entries, p.1 ≠ "EUR") :
    ∀ r, List.lookup "EUR" (insert_rates pf entries r).1
      = List.lookup "EUR" r := by
  induction entries with
  | nil => intro r; rfl
  | cons p rest ih =>
    intro r
    obtain ⟨c, rs⟩ := p
    cases hq : pf rs with
    | none => simp [insert_rates, hq]
    | some q =>
      simp only [insert_rates, hq]
      rw [ih (fun p hp => hne p (List.mem_cons_of_mem _ hp)) _]
      exact lookup_dictInsert_ne c "EUR" q r
        (hne (c, rs) (List.mem_cons_self _ _))

/-- C3: if the elapsed time since `last_update` is at most the 3-hour
window, `update_exchange_rates` returns immediately with no fetch and no
change to the state; if the elapsed time exceeds the window, it performs
exactly one fetch attempt. -/
theorem cache_window_no_fetch_or_one_fetch (pf : String → Option ℚ)
    (fetch : Except PyExc (List (String × String))) (now : Int)
    (s : ECBState) :
    (now - s.last_update ≤ CACHE_TIME →
      update_exchange_rates pf fetch now s = ⟨Except.ok (), s, 0⟩) ∧
    (CACHE_TIME < now - s.last_update →
      (update_exchange_rates pf fetch now s).fetches = 1) := by
  constructor
  · exact update_hit pf fetch now s
  · intro hgt
    have hle := not_le.mpr hgt
    cases fetch with
    | error e => rw [update_stale_err pf e now s hle]
    | ok entries =>
      cases hins : insert_rates pf entries [("EUR", 1)] with
      | mk r exc =>
        cases exc with
        | some e => rw [update_stale_loop_err pf entries now s r e hle hins]
        | none => rw [update_stale_success pf entries now s r hle hins]

/-- Witness for C3 at concrete inputs: a fresh cache at elapsed 100 s is a
hit with no fetch; a stale cache at elapsed 999999 s fetches once. -/
theorem cache_window_no_fetch_or_one_fetch_witness :
    update_exchange_rates pf0 (Except.ok []) 100 ⟨0, []⟩
      = ⟨Except.ok (), ⟨0, []⟩, 0⟩ ∧
    (update_exchange_rates pf0 (Except.ok []) 999999 ⟨0, []⟩).fetches = 1 :=
  ⟨(cache_window_no_fetch_or_one_fetch pf0 (Except.ok []) 100 ⟨0, []⟩).1
      (by decide),
   (cache_window_no_fetch_or_one_fetch pf0 (Except.ok []) 999999 ⟨0, []⟩).2
      (by decide)⟩

/-- C4: when both currencies are present in the post-refresh dict, the
conversion returns exactly `src_amount / rates[src] * rates[dest]`, with no
rounding applied at this layer. -/
theorem convert_exact_formula (pf : String → Option ℚ)
    (fetch : Except PyExc (List (String × String))) (now : Int)
    (a rs rd : ℚ) (src dest : String) (s s' : ECBState) (n : Nat)
    (hup : update_exchange_rates pf fetch now s = ⟨Except.ok (), s', n⟩)
    (hs : List.lookup src s'.euro_to_currency = some rs)
    (hd : List.lookup dest s'.euro_to_currency = some rd) :
    get_amount_in_dest_currency pf fetch now a src dest s
      = ⟨Except.ok (a / rs * rd), s', n⟩ := by
  unfold get_amount_in_dest_currency
  rw [hup]
  simp [hs, hd]

/-- Witness for C4: converting 10 USD at rate USD = 2 per EUR into EUR at
rate 1 gives 10 / 2 * 1 = 5. -/
theorem convert_exact_formula_witness :
    get_amount_in_dest_currency pf0 (Except.ok []) 0 10 "USD" "EUR"
        ⟨0, [("EUR", 1), ("USD", 2)]⟩
      = ⟨Except.ok 5, ⟨0, [("EUR", 1), ("USD", 2)]⟩, 0⟩ := by
  have h := convert_exact_formula pf0 (Except.ok []) 0 10 2 1
    "USD" "EUR" ⟨0, [("EUR", 1), ("USD", 2)]⟩
    ⟨0, [("EUR", 1), ("USD", 2)]⟩ 0
    (update_hit pf0 (Except.ok []) 0 ⟨0, [("EUR", 1), ("USD", 2)]⟩
      (by decide))
    (by decide) (by decide)
  rw [h]
  norm_num [Eff.mk.injEq]

/-- C5: under a successful (or skipped) refresh, the conversion raises the
unknown-currency `ValueError` if and only if at least one of the two codes
is absent from the post-refresh dict; the raised error is the same bare
`ValueError` in every such case, so it does not indicate which code was
missing. -/
theorem convert_unknown_currency_iff (pf : String → Option ℚ)
    (fetch : Except PyExc (List (String × String))) (now : Int)
    (a : ℚ) (src dest : String) (s s' : ECBState) (n : Nat)
    (hup : update_exchange_rates pf fetch now s = ⟨Except.ok (), s', n⟩) :
    (get_amount_in_dest_currency pf fetch now a src dest s).result
        = Except.error PyExc.valueError
      ↔ (List.lookup src s'.euro_to_currency = none
         ∨ List.lookup dest s'.euro_to_currency = none) := by
  unfold get_amount_in_dest_currency
  rw [hup]
  cases hs : List.lookup src s'.euro_to_currency <;>
    cases hd : List.lookup dest s'.euro_to_currency <;> simp [hs, hd]

/-- Witness for C5: with only EUR in the dict, converting from the unknown
code XXX raises the unknown-currency error. -/
theorem convert_unknown_currency_iff_witness :
    (get_amount_in_dest_currency pf0 (Except.ok []) 0 1 "XXX" "EUR"
        ⟨0, [("EUR", 1)]⟩).result = Except.error PyExc.valueError :=
  (convert_unknown_currency_iff pf0 (Except.ok []) 0 1 "XXX" "EUR"
    ⟨0, [("EUR", 1)]⟩ ⟨0, [("EUR", 1)]⟩ 0
    (update_hit pf0 (Except.ok []) 0 ⟨0, [("EUR", 1)]⟩ (by decide))).mpr
    (Or.inl (by decide))

/-- C1 counterexample: the refresh is not atomic. With pre-state
`last_update = 0`, rates `{USD: 2}`, clock 100000 (stale) and a network
failure, the post-state differs from the pre-state: the dict was cleared
and re-seeded before the fetch, so the stale USD entry is gone. -/
theorem update_failure_not_atomic :
    ¬ ((update_exchange_rates pf0 (Except.error PyExc.urlError) 100000
        ⟨0, [("USD", 2)]⟩).state = ⟨0, [("USD", 2)]⟩) := by decide

/-- C1 (amended): after a refresh triggered while stale whose fetch fails,
`last_update` is indeed unchanged, but the rates dict is not: it has been
cleared and re-seeded to exactly `{EUR: 1.0}` before the fetch attempt
(and, for a mid-loop rate-parse failure, additionally holds the entries
inserted before the failure); the failure propagates. The first conjunct
states the exact post-state for a fetch-level failure; the second states
that `last_update` survives every failing refresh. -/
theorem update_failure_keeps_timestamp_clears_rates
    (pf : String → Option ℚ) (fetch : Except PyExc (List (String × String)))
    (e : PyExc) (now : Int) (s : ECBState)
    (hstale : ¬ now - s.last_update ≤ CACHE_TIME) :
    update_exchange_rates pf (Except.error e) now s
      = ⟨Except.error e, ⟨s.last_update, [("EUR", 1)]⟩, 1⟩ ∧
    (∀ e', (update_exchange_rates pf fetch now s).result = Except.error e' →
      (update_exchange_rates pf fetch now s).state.last_update
        = s.last_update) := by
  refine ⟨update_stale_err pf e now s hstale, ?_⟩
  intro e' herr
  cases fetch with
  | error e2 => rw [update_stale_err pf e2 now s hstale]
  | ok entries =>
    cases hins : insert_rates pf entries [("EUR", 1)] with
    | mk r exc =>
      cases exc with
      | some e2 => rw [update_stale_loop_err pf entries now s r e2 hstale hins]
      | none =>
        rw [update_stale_success pf entries now s r hstale hins] at herr
        simp at herr

/-- Witness for the amended C1 at a concrete failing refresh. -/
theorem update_failure_keeps_timestamp_clears_rates_witness :
    update_exchange_rates pf0 (Except.error PyExc.urlError) 100000
        ⟨0, [("USD", 2)]⟩
      = ⟨Except.error PyExc.urlError, ⟨0, [("EUR", 1)]⟩, 1⟩ :=
  (update_failure_keeps_timestamp_clears_rates pf0
    (Except.error PyExc.urlError) PyExc.urlError 100000
    ⟨0, [("USD", 2)]⟩ (by decide)).1

/-- C8 counterexample: the EUR seed is inserted before the parsed entries,
so a feed whose leaves themselves name EUR overwrites it: after this
successful fetch of the single leaf `(EUR, "0.5")` the dict maps EUR to
1/2, not 1.0. -/
theorem eur_seed_overwritten :
    (update_exchange_rates pf0 (Except.ok [("EUR", "0.5")]) 100000
        ⟨0, []⟩).result = Except.ok () ∧
    ¬ (List.lookup "EUR"
        (update_exchange_rates pf0 (Except.ok [("EUR", "0.5")]) 100000
          ⟨0, []⟩).state.euro_to_currency = some 1) := by
  constructor
  · rfl
  · intro h
    rw [show (update_exchange_rates pf0 (Except.ok [("EUR", "0.5")]) 100000
        ⟨0, []⟩).state.euro_to_currency = [("EUR", 1 / 2)] from rfl] at h
    simp [List.lookup] at h

/-- C8 (amended): after every successful fetch whose feed does not itself
contain an EUR leaf (the real ECB feed never lists the base currency), the
rates dict maps EUR to exactly 1.0, seeded before the parsed entries are
inserted. -/
theorem eur_present_after_successful_fetch (pf : String → Option ℚ)
    (entries : List (String × String)) (now : Int) (s : ECBState)
    (hstale : ¬ now - s.last_update ≤ CACHE_TIME)
    (hne : ∀ p ∈ entries, p.1 ≠ "EUR")
    (hok : (update_exchange_rates pf (Except.ok entries) now s).result
      = Except.ok ()) :
    List.lookup "EUR"
      (update_exchange_rates pf (Except.ok entries) now
        s).state.euro_to_currency = some 1 := by
  cases hins : insert_rates pf entries [("EUR", 1)] with
  | mk r exc =>
    cases exc with
    | some e =>
      rw [update_stale_loop_err pf entries now s r e hstale hins] at hok
      simp at hok
    | none =>
      rw [update_stale_success pf entries now s r hstale hins]
      have := lookup_eur_insert_rates pf entries hne [("EUR", 1)]
      rw [hins] at this
      simpa [List.lookup] using this

/-- Witness for the amended C8 at a concrete successful fetch of a feed
with USD and JPY leaves. -/
theorem eur_present_after_successful_fetch_witness :
    List.lookup "EUR"
      (update_exchange_rates pf0 (Except.ok [("USD", "1.1"), ("JPY", "10")])
        100000 ⟨0, []⟩).state.euro_to_currency = some 1 :=
  eur_present_after_successful_fetch pf0 [("USD", "1.1"), ("JPY", "10")]
    100000 ⟨0, []⟩ (by decide) (by decide) (by rfl)

/-- Conversion helper: when the refresh succeeds, the conversion is decided
by the two dict lookups on the post-refresh state. -/
theorem get_amount_of_update_ok (pf : String → Option ℚ)
    (fetch : Except PyExc (List (String × String))) (now : Int)
    (a : ℚ) (src dest : String) (s s' : ECBState) (n : Nat)
    (hup : update_exchange_rates pf fetch now s = ⟨Except.ok (), s', n⟩) :
    get_amount_in_dest_currency pf fetch now a src dest s
      = ⟨match List.lookup src s'.euro_to_currency,
            List.lookup dest s'.euro_to_currency with
          | some rs, some rd => Except.ok (a / rs * rd)
          | _, _ => Except.error PyExc.valueError, s', n⟩ := by
  unfold get_amount_in_dest_currency
  rw [hup]
  cases hs : List.lookup src s'.euro_to_currency <;>
    cases hd : List.lookup dest s'.euro_to_currency <;> simp [hs, hd]

/-- Conversion helper: a refresh failure propagates out of the
conversion. -/
theorem get_amount_of_update_err (pf : String → Option ℚ)
    (fetch : Except PyExc (List (String × String))) (now : Int)
    (a : ℚ) (src dest : String) (s s' : ECBState) (n : Nat) (e : PyExc)
    (hup : update_exchange_rates pf fetch now s = ⟨Except.error e, s', n⟩) :
    get_amount_in_dest_currency pf fetch now a src dest s
      = ⟨Except.error e, s', n⟩ := by
  unfold get_amount_in_dest_currency
  rw [hup]

/-- Item helper: when the refresh succeeds, `create_item` returns (never
raises) and produces exactly the item described by `mkConvItem` on the
post-refresh dict, `none` when the unknown-currency `ValueError` was
caught. -/
theorem create_item_of_update_ok (pf : String → Option ℚ)
    (fetch : Except PyExc (List (String × String))) (now : Int)
    (a : ℚ) (src d : String) (s s' : ECBState) (n : Nat)
    (hup : update_exchange_rates pf fetch now s = ⟨Except.ok (), s', n⟩) :
    create_item pf fetch now a src d s
      = ⟨Except.ok (mkConvItem s'.euro_to_currency a src d), s', n⟩ := by
  unfold create_item
  rw [get_amount_of_update_ok pf fetch now a src d s s' n hup]
  unfold mkConvItem
  cases List.lookup src s'.euro_to_currency <;>
    cases List.lookup d s'.euro_to_currency <;> rfl

/-- Item helper: when the refresh raises, `create_item` swallows a
`ValueError` (returning no item) and propagates every other exception. -/
theorem create_item_of_update_err (pf : String → Option ℚ)
    (fetch : Except PyExc (List (String × String))) (now : Int)
    (a : ℚ) (src d : String) (s s' : ECBState) (n : Nat) (e : PyExc)
    (hup : update_exchange_rates pf fetch now s = ⟨Except.error e, s', n⟩) :
    create_item pf fetch now a src d s
      = if e = PyExc.valueError then ⟨Except.ok none, s', n⟩
        else ⟨Except.error e, s', n⟩ := by
  unfold create_item
  rw [get_amount_of_update_err pf fetch now a src d s s' n e hup]

/-- Defaults-loop helper: when the refresh succeeds from the entry state,
the loop collects, in configured order, exactly the successful conversions
of the entries different from the source currency, all evaluated against
the post-refresh dict (later refreshes inside the same loop are cache
hits). -/
theorem items_defaults_filterMap (pf : String → Option ℚ)
    (fetch : Except PyExc (List (String × String))) (now : Int)
    (a : ℚ) (src : String) :
    ∀ (ds : List String) (s s' : ECBState) (n : Nat),
      update_exchange_rates pf fetch now s = ⟨Except.ok (), s', n⟩ →
      (items_defaults pf fetch now a src ds s).result
        = Except.ok ((ds.filter fun d => d ≠ src).filterMap
            fun d => mkConvItem s'.euro_to_currency a src d) := by
  intro ds
  induction ds with
  | nil => intro s s' n _; rfl
  | cons d rest ih =>
    intro s s' n hup
    by_cases hd : d = src
    · subst hd
      have hstep : items_defaults pf fetch now a d (d :: rest) s
          = items_defaults pf fetch now a d rest s := by
        simp [items_defaults]
      rw [hstep, ih s s' n hup]
      simp
    · have hci := create_item_of_update_ok pf fetch now a src d s s' n hup
      cases hmk : mkConvItem s'.euro_to_currency a src d with
      | none =>
        rw [hmk] at hci
        have hstep : (items_defaults pf fetch now a src (d :: rest) s).result
            = (items_defaults pf fetch now a src rest s').result := by
          simp [items_defaults, hd, hci]
        rw [hstep, ih s' s' 0 (update_idempotent pf fetch now s s' n hup)]
        simp [hd, hmk]
      | some it =>
        rw [hmk] at hci
        have hstep : (items_defaults pf fetch now a src (d :: rest) s).result
            = (fun l => it :: l) <$>
              (items_defaults pf fetch now a src rest s').result := by
          simp [items_defaults, hd, hci]
        rw [hstep, ih s' s' 0 (update_idempotent pf fetch now s s' n hup)]
        simp [hd, hmk]

/-- Resolver equation: an empty query yields nothing silently. -/
theorem items_eq_nil (pf : String → Option ℚ)
    (fetch : Except PyExc (List (String × String)))
    (aliases : List (String × String)) (dd : List String) (now : Int)
    (query : String) (s : ECBState) (hq : pySplit query = []) :
    Plugin.items pf fetch aliases dd now query s = ⟨Except.ok [], s, 0⟩ := by
  unfold Plugin.items
  rw [hq]

/-- Resolver equation: a one-token query yields nothing silently. -/
theorem items_eq_one (pf : String → Option ℚ)
    (fetch : Except PyExc (List (String × String)))
    (aliases : List (String × String)) (dd : List String) (now : Int)
    (query : String) (s : ECBState) (t1 : String)
    (hq : pySplit query = [t1]) :
    Plugin.items pf fetch aliases dd now query s = ⟨Except.ok [], s, 0⟩ := by
  unfold Plugin.items
  rw [hq]

/-- Resolver equation: a query of four or more tokens yields nothing
silently. -/
theorem items_eq_many (pf : String → Option ℚ)
    (fetch : Except PyExc (List (String × String)))
    (aliases : List (String × String)) (dd : List String) (now : Int)
    (query : String) (s : ECBState) (t1 t2 t3 t4 : String)
    (ts : List String) (hq : pySplit query = t1 :: t2 :: t3 :: t4 :: ts) :
    Plugin.items pf fetch aliases dd now query s = ⟨Except.ok [], s, 0⟩ := by
  unfold Plugin.items
  rw [hq]

/-- Resolver equation: a two-token query parses the amount and runs the
defaults loop with the alias-resolved source. -/
theorem items_eq_two (pf : String → Option ℚ)
    (fetch : Except PyExc (List (String × String)))
    (aliases : List (String × String)) (dd : List String) (now : Int)
    (query : String) (s : ECBState) (t1 t2 : String)
    (hq : pySplit query = [t1, t2]) :
    Plugin.items pf fetch aliases dd now query s
      = match pf t1 with
        | none => ⟨Except.ok [], s, 0⟩
        | some a =>
          items_defaults pf fetch now a (get_alias aliases t2) dd s := by
  unfold Plugin.items
  rw [hq]

/-- Resolver equation: a three-token query parses the amount and attempts
the single explicit conversion between the alias-resolved codes. -/
theorem items_eq_three (pf : String → Option ℚ)
    (fetch : Except PyExc (List (String × String)))
    (aliases : List (String × String)) (dd : List String) (now : Int)
    (query : String) (s : ECBState) (t1 t2 t3 : String)
    (hq : pySplit query = [t1, t2, t3]) :
    Plugin.items pf fetch aliases dd now query s
      = match pf t1 with
        | none => ⟨Except.ok [], s, 0⟩
        | some a =>
          match create_item pf fetch now a (get_alias aliases t2)
              (get_alias aliases t3) s with
          | ⟨Except.ok (some it), s', n⟩ => ⟨Except.ok [it], s', n⟩
          | ⟨Except.ok none, s', n⟩ => ⟨Except.ok [], s', n⟩
          | ⟨Except.error e, s', n⟩ => ⟨Except.error e, s', n⟩ := by
  unfold Plugin.items
  rw [hq]

/-- C2 counterexample: a network failure during the refresh triggered by
the conversion is NOT caught by the resolver: on the query "1 usd eur"
with a stale cache and a fetch raising `URLError`, the error propagates out
of `Plugin.items` to the host instead of yielding an empty list. -/
theorem resolver_propagates_network_error :
    (Plugin.items pf0 (Except.error PyExc.urlError) [] [] 100000
      "1 usd eur" ⟨0, []⟩).result = Except.error PyExc.urlError := by rfl

/-- C2 (amended): the resolver swallows exactly `ValueError` per attempted
conversion (which covers the unknown-currency error and a malformed rate
attribute, both raised as `ValueError`); when the fetch succeeds and every
rate attribute parses, no error at all escapes `Plugin.items` — the
host-visible result is an ordered, possibly-empty list. Network errors,
XML parse errors and missing namespace/attribute errors are not
`ValueError` and do propagate (see the counterexample). -/
theorem resolver_no_error_on_parsing_feed (pf : String → Option ℚ)
    (fetch : Except PyExc (List (String × String)))
    (aliases : List (String × String)) (dd : List String) (now : Int)
    (query : String) (s : ECBState) (entries : List (String × String))
    (hfetch : fetch = Except.ok entries)
    (hparse : ∀ p ∈ entries, (pf p.2).isSome) :
    (Plugin.items pf fetch aliases dd now query s).result.isOk = true := by
  subst hfetch
  obtain ⟨s', n, hup⟩ := update_ok pf entries now hparse s
  rcases hq : pySplit query with _ | ⟨t1, _ | ⟨t2, _ | ⟨t3, _ | ⟨t4, ts⟩⟩⟩⟩
  · rw [items_eq_nil pf _ aliases dd now query s hq]
    rfl
  · rw [items_eq_one pf _ aliases dd now query s t1 hq]
    rfl
  · rw [items_eq_two pf _ aliases dd now query s t1 t2 hq]
    cases hpf : pf t1 with
    | none => rfl
    | some a =>
      have hloop := items_defaults_filterMap pf (Except.ok entries) now a
        (get_alias aliases t2) dd s s' n hup
      simp [hloop, Except.isOk, Except.toBool]
  · rw [items_eq_three pf _ aliases dd now query s t1 t2 t3 hq]
    cases hpf : pf t1 with
    | none => rfl
    | some a =>
      have hci := create_item_of_update_ok pf (Except.ok entries) now a
        (get_alias aliases t2) (get_alias aliases t3) s s' n hup
      cases hmk : mkConvItem s'.euro_to_currency a (get_alias aliases t2)
          (get_alias aliases t3) with
      | none => rw [hmk] at hci; simp [hci, Except.isOk, Except.toBool]
      | some it => rw [hmk] at hci; simp [hci, Except.isOk, Except.toBool]
  · rw [items_eq_many pf _ aliases dd now query s t1 t2 t3 t4 ts hq]
    rfl

/-- Witness for the amended C2: a two-token query against a fully parsing
feed produces an ok result. -/
theorem resolver_no_error_on_parsing_feed_witness :
    (Plugin.items pf0 (Except.ok [("USD", "2")]) [] ["EUR"] 100000 "10 usd"
      ⟨0, []⟩).result.isOk = true :=
  resolver_no_error_on_parsing_feed pf0 (Except.ok [("USD", "2")]) []
    ["EUR"] 100000 "10 usd" ⟨0, []⟩ [("USD", "2")] rfl (by decide)

/-- C6: a query whose whitespace tokenization has a token count other than
2 or 3, or whose first token makes `float` raise, yields the empty result
with no error surfaced, no state change and no fetch. -/
theorem resolver_silent_on_parse_failure (pf : String → Option ℚ)
    (fetch : Except PyExc (List (String × String)))
    (aliases : List (String × String)) (dd : List String) (now : Int)
    (query : String) (s : ECBState)
    (h : ((pySplit query).length ≠ 2 ∧ (pySplit query).length ≠ 3)
      ∨ ∃ t ts, pySplit query = t :: ts ∧ pf t = none) :
    Plugin.items pf fetch aliases dd now query s = ⟨Except.ok [], s, 0⟩ := by
  rcases hq : pySplit query with _ | ⟨t1, _ | ⟨t2, _ | ⟨t3, _ | ⟨t4, ts⟩⟩⟩⟩
  · exact items_eq_nil pf fetch aliases dd now query s hq
  · exact items_eq_one pf fetch aliases dd now query s t1 hq
  · rcases h with ⟨h2, -⟩ | ⟨t, ts', heq, hpf⟩
    · rw [hq] at h2; simp at h2
    · rw [hq] at heq
      injection heq with ht hrest
      subst ht
      rw [items_eq_two pf fetch aliases dd now query s t1 t2 hq, hpf]
  · rcases h with ⟨-, h3⟩ | ⟨t, ts', heq, hpf⟩
    · rw [hq] at h3; simp at h3
    · rw [hq] at heq
      injection heq with ht hrest
      subst ht
      rw [items_eq_three pf fetch aliases dd now query s t1 t2 t3 hq, hpf]
  · exact items_eq_many pf fetch aliases dd now query s t1 t2 t3 t4 ts hq

/-- Witness for C6 at two concrete inputs: the one-token query "abc"
yields nothing, and the two-token query "abc usd" with an unparseable
amount token yields nothing. -/
theorem resolver_silent_on_parse_failure_witness :
    Plugin.items pf0 (Except.ok []) [] ["EUR"] 100000 "abc" ⟨0, []⟩
      = ⟨Except.ok [], ⟨0, []⟩, 0⟩ ∧
    Plugin.items pf0 (Except.ok []) [] ["EUR"] 100000 "abc usd" ⟨0, []⟩
      = ⟨Except.ok [], ⟨0, []⟩, 0⟩ :=
  ⟨resolver_silent_on_parse_failure pf0 (Except.ok []) [] ["EUR"] 100000
      "abc" ⟨0, []⟩ (Or.inl (by decide)),
   resolver_silent_on_parse_failure pf0 (Except.ok []) [] ["EUR"] 100000
      "abc usd" ⟨0, []⟩ (Or.inr ⟨"abc", ["usd"], by decide, by decide⟩)⟩

/-- C7: on a two-token query (with the amount parsing and the feed
fetching and parsing cleanly, so that only per-destination unknown-currency
failures can occur), the resolver walks `defaults_dests` in configured
order, skips exactly the entries equal to the alias-resolved source
currency, attempts a conversion for each remaining entry against the
post-refresh dict, and returns exactly the successful conversions in that
same order — a failed destination is dropped without removing later
destinations' results. -/
theorem two_token_defaults_order (pf : String → Option ℚ)
    (fetch : Except PyExc (List (String × String)))
    (aliases : List (String × String)) (dd : List String) (now : Int)
    (query : String) (s : ECBState) (t1 t2 : String) (a : ℚ)
    (entries : List (String × String))
    (hsplit : pySplit query = [t1, t2])
    (hamt : pf t1 = some a)
    (hfetch : fetch = Except.ok entries)
    (hparse : ∀ p ∈ entries, (pf p.2).isSome) :
    (Plugin.items pf fetch aliases dd now query s).result
      = Except.ok ((dd.filter fun d => d ≠ get_alias aliases t2).filterMap
          fun d => mkConvItem
            (update_exchange_rates pf fetch now s).state.euro_to_currency a
            (get_alias aliases t2) d) := by
  subst hfetch
  obtain ⟨s', n, hup⟩ := update_ok pf entries now hparse s
  have hst : (update_exchange_rates pf (Except.ok entries) now s).state
      = s' := by rw [hup]
  rw [items_eq_two pf _ aliases dd now query s t1 t2 hsplit, hamt, hst]
  exact items_defaults_filterMap pf (Except.ok entries) now a
    (get_alias aliases t2) dd s s' n hup

/-- Witness for C7: query "10 usd" with defaults `[USD, EUR, GBP]` against
the feed `{USD: 2}`: USD is skipped as the source, EUR succeeds, GBP fails
(unknown) without removing EUR's result. -/
theorem two_token_defaults_order_witness :
    (Plugin.items pf0 (Except.ok [("USD", "2")]) [] ["USD", "EUR", "GBP"]
      100000 "10 usd" ⟨0, []⟩).result
      = Except.ok [⟨"USD,EUR", 10 / 2 * 1, "EUR", 10, "USD"⟩] := by
  rw [two_token_defaults_order pf0 (Except.ok [("USD", "2")]) []
    ["USD", "EUR", "GBP"] 100000 "10 usd" ⟨0, []⟩ "10" "usd" 10
    [("USD", "2")] (by decide) (by decide) rfl (by decide)]
  rfl

/-- C10: in the omitted-destination path each configured default entry is
compared verbatim — case-sensitively, with no alias resolution and no
upper-casing — against the alias-resolved uppercase source currency, and
is passed unmodified as the key of the conversion lookup. First conjunct:
an entry `d` that differs as a string from the resolved source (even one
naming the same currency in lowercase) is not skipped: the conversion is
attempted and keyed by the verbatim `d`. Second conjunct: an entry equal
to the resolved source is skipped entirely. -/
theorem default_dest_verbatim (pf : String → Option ℚ)
    (aliases : List (String × String)) (now : Int) (query : String)
    (s : ECBState) (t1 t2 : String) (a : ℚ)
    (entries : List (String × String)) (d : String)
    (hsplit : pySplit query = [t1, t2])
    (hamt : pf t1 = some a)
    (hparse : ∀ p ∈ entries, (pf p.2).isSome)
    (hne : d ≠ get_alias aliases t2) :
    (Plugin.items pf (Except.ok entries) aliases [d] now query s).result
      = Except.ok (Option.toList (mkConvItem
          (update_exchange_rates pf (Except.ok entries) now
            s).state.euro_to_currency a (get_alias aliases t2) d))
    ∧ Plugin.items pf (Except.ok entries) aliases [get_alias aliases t2]
        now query s = ⟨Except.ok [], s, 0⟩ := by
  obtain ⟨s', n, hup⟩ := update_ok pf entries now hparse s
  have hst : (update_exchange_rates pf (Except.ok entries) now s).state
      = s' := by rw [hup]
  constructor
  · rw [items_eq_two pf _ aliases [d] now query s t1 t2 hsplit, hamt, hst]
    rw [items_defaults_filterMap pf (Except.ok entries) now a
      (get_alias aliases t2) [d] s s' n hup]
    cases hmk : mkConvItem s'.euro_to_currency a (get_alias aliases t2) d
      with
    | none => simp [hne, hmk]
    | some it => simp [hne, hmk]
  · rw [items_eq_two pf _ aliases [get_alias aliases t2] now query s t1 t2
      hsplit, hamt]
    simp [items_defaults]

/-- Witness for C10: the source token "eur" resolves to "EUR", yet the
lowercase configured default "eur" is not skipped: with a feed that lists
a lowercase code `eur` at rate 2, the conversion is attempted and looks up
the verbatim "eur", producing the item with id "EUR,eur"; the uppercase
default "EUR" is skipped as the self-conversion. -/
theorem default_dest_verbatim_witness :
    (Plugin.items pf0 (Except.ok [("eur", "2")]) [] ["eur"] 100000
      "10 eur" ⟨0, []⟩).result
      = Except.ok [⟨"EUR,eur", 10 / 1 * 2, "eur", 10, "EUR"⟩]
    ∧ Plugin.items pf0 (Except.ok [("eur", "2")]) [] ["EUR"] 100000
        "10 eur" ⟨0, []⟩ = ⟨Except.ok [], ⟨0, []⟩, 0⟩ := by
  have h := default_dest_verbatim pf0 [] 100000 "10 eur" ⟨0, []⟩ "10" "eur"
    10 [("eur", "2")] "eur" (by decide) (by decide) (by decide) (by decide)
  refine ⟨?_, ?_⟩
  · rw [h.1]
    rfl
  · have h2 := h.2
    rwa [show get_alias [] "eur" = "EUR" from rfl] at h2
